import Mathlib

/-!
Verification development for the Kaizen-Gym gate-control system.

We give a shallow embedding of the core components — the biometric
template vault (`template_manager.py`), the membership registry
(`membership_manager.py`), the auto-block orchestrator
(`auto_block_manager.py`), the remote authorization client
(`gymforce_api.py`) and the polling attendance-ingestion loop
(`zk_listener.py`) — and prove the spec's safety and functional
properties about them.

Conventions of the embedding:
* Python dicts keyed by user id become association lists
  `List (String × α)` with first-match lookup and in-place overwrite.
* `datetime` values become `Nat` timestamps in seconds; a calendar
  date `d` (as produced by `strptime "%Y-%m-%d"`, i.e. midnight)
  corresponds to the timestamp `d * daySecs`.
* Binary template payloads are `List Nat` byte sequences; the
  persisted form is the lowercase hex string produced by
  `bytes.hex()`, decoded again by `bytes.fromhex`.
* Fallible operations return a `Bool` success flag together with the
  updated stores, exactly mirroring the Python return conventions.
* Audit-only timestamp fields (`created_at`, `blocked_at`, …) that no
  verified property reads are omitted from the record model.
-/

namespace KaizenGym

/-! ## Association lists (Python dict keyed by a string) -/

/-- First-match lookup, the semantics of `d[k]` / `k in d`. -/
def alookup {α : Type} : List (String × α) → String → Option α
  | [], _ => none
  | (k', v) :: rest, k => if k' = k then some v else alookup rest k

/-- `d[k] = v`: overwrite the first binding of `k`, or append one. -/
def ainsert {α : Type} : List (String × α) → String → α → List (String × α)
  | [], k, v => [(k, v)]
  | (k', v') :: rest, k, v =>
      if k' = k then (k, v) :: rest else (k', v') :: ainsert rest k v

/-- `del d[k]`: remove the first binding of `k`. -/
def aerase {α : Type} : List (String × α) → String → List (String × α)
  | [], _ => []
  | (k', v') :: rest, k => if k' = k then rest else (k', v') :: aerase rest k

theorem alookup_ainsert {α : Type} (l : List (String × α)) (k k' : String) (v : α) :
    alookup (ainsert l k v) k' = if k = k' then some v else alookup l k' := by
  induction l with
  | nil =>
    by_cases h : k = k' <;> simp [ainsert, alookup, h]
  | cons p rest ih =>
    obtain ⟨k₀, v₀⟩ := p
    simp only [ainsert]
    by_cases h0 : k₀ = k
    · subst h0
      simp only [if_pos rfl]
      by_cases h1 : k₀ = k' <;> simp [alookup, h1]
    · simp only [if_neg h0, alookup]
      by_cases h1 : k₀ = k'
      · subst h1
        have hk : ¬ k = k₀ := fun h => h0 h.symm
        simp [ih, hk]
      · simp [h1, ih]

theorem alookup_ainsert_self {α : Type} (l : List (String × α)) (k : String) (v : α) :
    alookup (ainsert l k v) k = some v := by
  simp [alookup_ainsert]

theorem alookup_ainsert_ne {α : Type} (l : List (String × α)) (k k' : String) (v : α)
    (h : k ≠ k') : alookup (ainsert l k v) k' = alookup l k' := by
  simp [alookup_ainsert, h]

/-! ## Hex encoding of binary payloads (`bytes.hex` / `bytes.fromhex`) -/

/-- Lowercase hex digit for a value `< 16`. -/
def hexDigit (n : Nat) : Char :=
  if n < 10 then Char.ofNat (48 + n) else Char.ofNat (87 + n)

/-- `bytes.hex()`: two lowercase hex digits per byte. -/
def bytesToHex (bs : List Nat) : List Char :=
  bs.flatMap fun b => [hexDigit (b / 16), hexDigit (b % 16)]

/-- Value of a single hex digit, `none` on a non-hex character. -/
def hexDigitVal (c : Char) : Option Nat :=
  if 48 ≤ c.toNat ∧ c.toNat ≤ 57 then some (c.toNat - 48)
  else if 97 ≤ c.toNat ∧ c.toNat ≤ 102 then some (c.toNat - 87)
  else if 65 ≤ c.toNat ∧ c.toNat ≤ 70 then some (c.toNat - 55)
  else none

/-- `bytes.fromhex`: pairs of hex digits; fails on odd length or a
non-hex character (in Python that raises, caught by the callers). -/
def hexToBytes : List Char → Option (List Nat)
  | [] => some []
  | [_] => none
  | c₁ :: c₂ :: rest =>
    match hexDigitVal c₁, hexDigitVal c₂, hexToBytes rest with
    | some h, some l, some bs => some ((16 * h + l) :: bs)
    | _, _, _ => none

theorem hexDigitVal_hexDigit (n : Nat) (h : n < 16) :
    hexDigitVal (hexDigit n) = some n := by
  interval_cases n <;> decide

theorem hexToBytes_bytesToHex (bs : List Nat) (h : ∀ b ∈ bs, b < 256) :
    hexToBytes (bytesToHex bs) = some bs := by
  induction bs with
  | nil => decide
  | cons b rest ih =>
    have hb : b < 256 := h b (List.mem_cons_self b rest)
    have hhi : b / 16 < 16 := Nat.div_lt_of_lt_mul hb
    have hlo : b % 16 < 16 := Nat.mod_lt _ (by decide)
    have hrest : hexToBytes (bytesToHex rest) = some rest :=
      ih fun x hx => h x (List.mem_cons_of_mem b hx)
    simp only [bytesToHex, List.flatMap_cons] at *
    have hrest' : hexToBytes (List.append []
        (rest.flatMap fun b => [hexDigit (b / 16), hexDigit (b % 16)])) = some rest := hrest
    simp only [hexToBytes, hexDigitVal_hexDigit _ hhi, hexDigitVal_hexDigit _ hlo,
      hrest', Nat.div_add_mod]

/-! ## Biometric device (collaborator)

Modelled from the spec: the `BiometricDeviceClient` capability interface
of §6 (`getUsers`, `getTemplates`, `deleteUser`, `saveUserTemplate`,
`getAttendance`); the device's wire protocol lives in the vendor's
`zk` library, not under `src/`.  A device is its enrolled users plus
the template records, keyed by the vendor-internal `uid`. -/

/-- A device-enrolled user (`zk.user.User`): the vendor-internal `uid`
plus the identity attributes the vault captures. -/
structure DeviceUser where
  uid : Nat
  name : String
  privilege : Nat
  password : String
  group_id : String
  user_id : String
  card : Nat
deriving DecidableEq, Repr

/-- A device template record (`zk.finger.Finger`): slot ids, validity
flag and the raw binary payload; `mark` is the optional quality mark
(absent on records rebuilt by restore). -/
structure DeviceTemplate where
  uid : Nat
  fid : Nat
  valid : Nat
  template : List Nat
  mark : String
deriving DecidableEq, Repr

/-- Modelled from the spec: device state behind the capability
interface — enrolled users and their template records. -/
structure Device where
  users : List DeviceUser
  templates : List DeviceTemplate
deriving DecidableEq, Repr

/-- `next((u for u in users if str(u.user_id) == str(user_id)), None)`:
first enrolled user with the matching external id. -/
def findUser : List DeviceUser → String → Option DeviceUser
  | [], _ => none
  | u :: rest, uid => if u.user_id = uid then some u else findUser rest uid

/-- Modelled from the spec: `deleteUser(deviceId)` removes the user
(and the templates attached to that device identity). -/
def delete_user (d : Device) (uid : Nat) : Device :=
  { users := d.users.filter fun u => decide (u.uid ≠ uid)
    templates := d.templates.filter fun t => decide (t.uid ≠ uid) }

/-- Modelled from the spec: `saveUserTemplate(DeviceUser, [DeviceTemplate])`
uploads identity and templates in one device operation, replacing any
prior enrollment under the same device identity. -/
def save_user_template (d : Device) (u : DeviceUser) (ts : List DeviceTemplate) : Device :=
  { users := u :: d.users.filter fun u' => decide (u'.uid ≠ u.uid)
    templates := ts ++ d.templates.filter fun t => decide (t.uid ≠ u.uid) }

/-! ## TemplateVault (`template_manager.py`) -/

/-- A persisted template: as stored in `user_templates.json`, with the
binary payload hex-encoded (`t.template.hex()`). -/
structure StoredTemplate where
  uid : Nat
  fid : Nat
  valid : Nat
  template : List Char
  mark : String
deriving DecidableEq, Repr

/-- One vault snapshot: the captured device identity plus the ordered
stored templates (`templates_db[user_id]`). -/
structure Snapshot where
  user : DeviceUser
  templates : List StoredTemplate
deriving DecidableEq, Repr

/-- The vault store `templates_db`, keyed by external user id. -/
abbrev TemplatesDB : Type := List (String × Snapshot)

/-- `TemplateManager.has_backup`. -/
def has_backup (db : TemplatesDB) (user_id : String) : Bool :=
  (alookup db user_id).isSome

/-- `TemplateManager.delete_backup`. -/
def delete_backup (db : TemplatesDB) (user_id : String) : Bool × TemplatesDB :=
  if (alookup db user_id).isSome then (true, aerase db user_id) else (false, db)

/-- Persisted form of one device template (the dict built inside
`backup_user_templates`). -/
def storeTemplate (t : DeviceTemplate) : StoredTemplate :=
  { uid := t.uid, fid := t.fid, valid := t.valid
    template := bytesToHex t.template, mark := t.mark }

/-- `TemplateManager.backup_user_templates`: find the user on the
device, collect the templates with its device identity and persist
them keyed by `user_id`; fails with no write if the user is absent or
has zero templates. -/
def backup_user_templates (d : Device) (db : TemplatesDB) (user_id : String) :
    Bool × TemplatesDB :=
  match findUser d.users user_id with
  | none => (false, db)
  | some user =>
    let user_templates := d.templates.filter fun t => decide (t.uid = user.uid)
    if user_templates.isEmpty then (false, db)
    else (true, ainsert db user_id ⟨user, user_templates.map storeTemplate⟩)

/-- Rebuild the `Finger` objects from a snapshot
(`bytes.fromhex` on each payload; `none` models the raised
`ValueError` on a malformed payload). The quality mark is not part of
the rebuilt record (`Finger` has no `mark`), matching the source. -/
def decodeStored : List StoredTemplate → Option (List DeviceTemplate)
  | [] => some []
  | t :: rest =>
    match hexToBytes t.template, decodeStored rest with
    | some bs, some ds =>
        some ({ uid := t.uid, fid := t.fid, valid := t.valid,
                template := bs, mark := "" } :: ds)
    | _, _ => none

/-- `TemplateManager.restore_user_templates`: requires a snapshot;
rebuilds the device identity and templates and uploads them in one
device call. -/
def restore_user_templates (d : Device) (db : TemplatesDB) (user_id : String) :
    Bool × Device :=
  match alookup db user_id with
  | none => (false, d)
  | some snap =>
    match decodeStored snap.templates with
    | none => (false, d)
    | some fingers => (true, save_user_template d snap.user fingers)

/-- `TemplateManager.block_user`: backup first; only on backup success
look the user up again and delete it from the device. -/
def block_user (d : Device) (db : TemplatesDB) (user_id : String) :
    Bool × Device × TemplatesDB :=
  match backup_user_templates d db user_id with
  | (false, db') => (false, d, db')
  | (true, db') =>
    match findUser d.users user_id with
    | none => (false, d, db')
    | some user => (true, delete_user d user.uid, db')

/-- `TemplateManager.unblock_user` = restore. -/
def unblock_user (d : Device) (db : TemplatesDB) (user_id : String) :
    Bool × Device :=
  restore_user_templates d db user_id

/-! ## MembershipRegistry (`membership_manager.py`)

Timestamps are seconds (`Nat`); a stored `"%Y-%m-%d"` expiration date
is its day number `e`, which `strptime` turns into the midnight
timestamp `e * daySecs`.  `expiration_date = none` models a missing or
empty date.  The formatted date in a reason string is rendered as the
day number.  A `saved` flag records that the branch called
`save_data()`. -/

/-- Seconds per calendar day. -/
def daySecs : Nat := 86400

/-- One membership record (`self.users[user_id]`); audit-only
timestamp fields that no verified property reads are omitted. -/
structure MemberRecord where
  user_id : String
  name : String
  expiration_date : Option Nat
  status : String
  last_visit : Option Nat
  visit_count : Nat
  block_reason : Option String
deriving DecidableEq, Repr

/-- The registry `self.users`, keyed by external user id. -/
abbrev Registry : Type := List (String × MemberRecord)

/-- Update a record in place if the id is registered
(`if user_id in self.users: ...`). -/
def regUpdate (users : Registry) (user_id : String) (f : MemberRecord → MemberRecord) :
    Registry :=
  match alookup users user_id with
  | none => users
  | some u => ainsert users user_id (f u)

/-- Result of `MembershipManager.validate_membership`, with the
updated registry and whether the branch persisted it. -/
structure VResult where
  allowed : Bool
  reason : String
  users : Registry
  saved : Bool
deriving Repr

/-- `MembershipManager.validate_membership`. -/
def validate_membership (users : Registry) (user_id : String) (now : Nat) : VResult :=
  match alookup users user_id with
  | none => ⟨false, "Usuario no registrado localmente", users, false⟩
  | some u =>
    if u.status = "inactive" then ⟨false, "Usuario inactivo", users, false⟩
    else if u.status = "blocked" then
      ⟨false, "Usuario bloqueado temporalmente", users, false⟩
    else match u.expiration_date with
      | none => ⟨false, "Sin fecha de vencimiento", users, false⟩
      | some e =>
        if e * daySecs < now then
          ⟨false, "Membresía vencida desde " ++ toString e,
            ainsert users user_id { u with status := "expired" }, true⟩
        else
          ⟨true, "Membresía activa hasta " ++ toString e,
            ainsert users user_id
              { u with last_visit := some now, visit_count := u.visit_count + 1 },
            true⟩

/-- `MembershipManager.add_user`: stores a fresh record under the id,
overwriting any prior one; `status` is a caller-supplied parameter
(default `"active"` at the call sites that register new members). -/
def add_user (users : Registry) (user_id name : String)
    (expiration_date : Option Nat) (status : String) : Registry :=
  ainsert users user_id
    { user_id := user_id, name := name, expiration_date := expiration_date,
      status := status, last_visit := none, visit_count := 0, block_reason := none }

/-- `MembershipManager.update_expiration` (renew). -/
def update_expiration (users : Registry) (user_id : String) (new_expiration : Nat) :
    Bool × Registry :=
  match alookup users user_id with
  | none => (false, users)
  | some u =>
    (true, ainsert users user_id
      { u with expiration_date := some new_expiration, status := "active" })

/-- `MembershipManager.deactivate_user`. -/
def deactivate_user (users : Registry) (user_id : String) : Registry :=
  regUpdate users user_id fun u => { u with status := "inactive" }

/-- `MembershipManager.reactivate_user`. -/
def reactivate_user (users : Registry) (user_id : String)
    (new_expiration : Option Nat) : Registry :=
  regUpdate users user_id fun u =>
    { u with
      status := "active"
      expiration_date := (match new_expiration with
        | some e => some e
        | none => u.expiration_date) }

/-- `MembershipManager.block_user_with_backup`: delegate to
`TemplateManager.block_user`; only on its success mark the record
blocked. -/
def block_user_with_backup (users : Registry) (db : TemplatesDB) (d : Device)
    (user_id : String) : Bool × Registry × TemplatesDB × Device :=
  match block_user d db user_id with
  | (true, d', db') =>
      (true, regUpdate users user_id (fun u => { u with status := "blocked" }), db', d')
  | (false, _, db') => (false, users, db', d)

/-- `MembershipManager.unblock_user_with_restore`: delegate to
`TemplateManager.unblock_user`; only on success set the record active
(and the new expiration when one is given). -/
def unblock_user_with_restore (users : Registry) (db : TemplatesDB) (d : Device)
    (user_id : String) (new_expiration : Option Nat) : Bool × Registry × Device :=
  match unblock_user d db user_id with
  | (true, d') =>
      (true,
        regUpdate users user_id (fun u =>
          { u with
            status := "active"
            expiration_date := (match new_expiration with
              | some e => some e
              | none => u.expiration_date) }), d')
  | (false, _) => (false, users, d)

/-! ## AutoBlockOrchestrator (`auto_block_manager.py`) -/

/-- `AutoBlockManager.should_block_user`: first-match precedence over
the membership record. -/
def should_block_user (memberships : Registry) (user_id : String) (now : Nat) :
    Bool × String :=
  match alookup memberships user_id with
  | none => (false, "Usuario no registrado en sistema local")
  | some m =>
    if m.status = "blocked" then (true, "Ya está bloqueado")
    else if m.status = "inactive" then (true, "Usuario inactivo")
    else match m.expiration_date with
      | none => (true, "Sin fecha de vencimiento")
      | some e =>
        if e * daySecs < now then
          (true, "Membresía vencida hace " ++
            toString ((now - e * daySecs) / daySecs) ++ " días")
        else (false, "Membresía activa")

/-- `AutoBlockManager.block_user_automatically`: ensure a snapshot
exists (skipping the backup when one already does), then delete the
user from the device and mark the record blocked. -/
def block_user_automatically (memberships : Registry) (db : TemplatesDB) (d : Device)
    (user_id reason : String) : Bool × Registry × TemplatesDB × Device :=
  match (if has_backup db user_id then (true, db)
         else backup_user_templates d db user_id : Bool × TemplatesDB) with
  | (false, db') => (false, memberships, db', d)
  | (true, db') =>
    match findUser d.users user_id with
    | none => (false, memberships, db', d)
    | some user =>
      (true,
        regUpdate memberships user_id (fun m =>
          { m with status := "blocked", block_reason := some reason }),
        db', delete_user d user.uid)

/-- `AutoBlockManager.unblock_user_automatically`: restore the
templates; only on success set the record active with the new
expiration. -/
def unblock_user_automatically (memberships : Registry) (db : TemplatesDB) (d : Device)
    (user_id : String) (new_expiration : Nat) : Bool × Registry × Device :=
  match restore_user_templates d db user_id with
  | (false, _) => (false, memberships, d)
  | (true, d') =>
    (true,
      regUpdate memberships user_id (fun m =>
        { m with status := "active", expiration_date := some new_expiration }), d')

/-! ## AccessValidationClient (`gymforce_api.py`)

The remote service is scripted: `logins` is the sequence of outcomes
of successive `login()` calls (`true` = HTTP 200 with a token), and
`resps` the sequence of responses to successive access queries.  An
exhausted login script behaves as a failing login and an exhausted
response script as a network timeout, so the functions are total; the
scripts of interest are long enough anyway.  `Option Decision` is the
Python return value: `none` is `None` (falling off the end of the
function), `some` a decision dict. -/

/-- The decision dict built by `validar_acceso` (or returned by the
service on HTTP 200). -/
structure Decision where
  status : String
  access : String
  respuesta : String
deriving DecidableEq, Repr

/-- One scripted HTTP response to the access query. -/
inductive HttpResp where
  | ok (d : Decision)
  | unauthorized
  | httpError (code : Nat)
  | timeout
  | netError (msg : String)
deriving DecidableEq, Repr

/-- The query-and-retry body of `validar_acceso`, entered with a valid
token: consume one scripted response; on 401, consume one login
outcome and, only if it succeeded, re-enter (the recursive
`self.validar_acceso(...)` whose `ensure_token` then passes).  A 401
whose re-login fails takes the `if self.login():` branch's fall-through:
the Python function returns `None`. -/
def validarGo : List Bool → List HttpResp → Option Decision
  | _, [] => some ⟨"ERROR", "deny", "Timeout"⟩
  | logins, r :: rest =>
    match r with
    | .ok d => some d
    | .httpError code => some ⟨"ERROR", "deny", "HTTP " ++ toString code⟩
    | .timeout => some ⟨"ERROR", "deny", "Timeout"⟩
    | .netError msg => some ⟨"ERROR", "deny", msg⟩
    | .unauthorized =>
      match logins with
      | [] => none
      | false :: _ => none
      | true :: ls => validarGo ls rest

/-- `GymforceAPI.validar_acceso`: `ensure_token` (a login when the
cached token is invalid; its failure yields the "Sin token válido"
deny), then the query-and-retry body. -/
def validar_acceso (tokenValid : Bool) (logins : List Bool) (resps : List HttpResp) :
    Option Decision :=
  if tokenValid then validarGo logins resps
  else
    match logins with
    | [] => some ⟨"ERROR", "deny", "Sin token válido"⟩
    | false :: _ => some ⟨"ERROR", "deny", "Sin token válido"⟩
    | true :: ls => validarGo ls resps

/-! ## AttendanceIngestionEngine, poll mode (`zk_listener.py`)

Device-clock timestamps are `Nat` seconds; `self.last_processed_time`
is the high-water mark. -/

/-- One device attendance record (`conn.get_attendance()` element). -/
structure AttRecord where
  user_id : String
  timestamp : Nat
deriving DecidableEq, Repr

/-- Stable ascending insertion by timestamp: the semantics of Python's
stable `sorted(new_records, key=lambda x: x.timestamp)`. -/
def insertByTs (r : AttRecord) : List AttRecord → List AttRecord
  | [] => [r]
  | s :: rest =>
    if s.timestamp ≤ r.timestamp then s :: insertByTs r rest else r :: s :: rest

/-- Sort a batch ascending by timestamp (stable). -/
def sortByTs : List AttRecord → List AttRecord
  | [] => []
  | r :: rest => insertByTs r (sortByTs rest)

/-- `ZKListenerThread._initialize_polling_timestamp` with a live
connection: keep an existing mark; otherwise the max existing device
timestamp, or `now` if the device has no records. -/
def initialize_polling_timestamp (mark : Option Nat) (records : List AttRecord)
    (now : Nat) : Nat :=
  match mark with
  | some t => t
  | none =>
    match records.map (fun r => r.timestamp) with
    | [] => now
    | t :: ts => ts.foldl Nat.max t

/-- `ZKListenerThread._poll_and_process_records` with a live
connection: keep the records strictly above the mark, process them in
ascending timestamp order, and advance the mark to each processed
record's timestamp in turn.  Returns the processed batch in processing
order and the final mark. -/
def poll_and_process_records (mark : Nat) (records : List AttRecord) :
    List AttRecord × Nat :=
  let new_records := records.filter fun r => decide (mark < r.timestamp)
  let batch := sortByTs new_records
  (batch, batch.foldl (fun _ r => r.timestamp) mark)

/-! ## Reachable system states

The membership registry, the vault and the device evolve together
through the public operations; `Step P` is one such operation, with
`P` constraining the `status` argument a caller may hand to
`add_user` (the claim as stated allows any status, i.e. `P := fun _ =>
True`).  `deviceEvolve` lets the device change arbitrarily between
operations (members enrolled at the device, reboots, …). -/

/-- Combined state: registry (`memberships.json`), vault
(`user_templates.json`) and the device. -/
structure SysState where
  reg : Registry
  vault : TemplatesDB
  device : Device

/-- State after `MembershipManager.block_user_with_backup`. -/
def applyBlockB (s : SysState) (user_id : String) : SysState :=
  match block_user_with_backup s.reg s.vault s.device user_id with
  | (_, reg', db', d') => ⟨reg', db', d'⟩

/-- State after `MembershipManager.unblock_user_with_restore`. -/
def applyUnblockR (s : SysState) (user_id : String) (new_expiration : Option Nat) :
    SysState :=
  match unblock_user_with_restore s.reg s.vault s.device user_id new_expiration with
  | (_, reg', d') => ⟨reg', s.vault, d'⟩

/-- State after `AutoBlockManager.block_user_automatically`. -/
def applyAutoBlock (s : SysState) (user_id reason : String) : SysState :=
  match block_user_automatically s.reg s.vault s.device user_id reason with
  | (_, reg', db', d') => ⟨reg', db', d'⟩

/-- State after `AutoBlockManager.unblock_user_automatically`. -/
def applyAutoUnblock (s : SysState) (user_id : String) (new_expiration : Nat) :
    SysState :=
  match unblock_user_automatically s.reg s.vault s.device user_id new_expiration with
  | (_, reg', d') => ⟨reg', s.vault, d'⟩

/-- One public operation of the subsystem. -/
inductive Step (P : String → Prop) : SysState → SysState → Prop where
  | add (s : SysState) (uid name : String) (exp : Option Nat) (status : String)
      (h : P status) :
      Step P s ⟨add_user s.reg uid name exp status, s.vault, s.device⟩
  | validate (s : SysState) (uid : String) (now : Nat) :
      Step P s ⟨(validate_membership s.reg uid now).users, s.vault, s.device⟩
  | renew (s : SysState) (uid : String) (e : Nat) :
      Step P s ⟨(update_expiration s.reg uid e).2, s.vault, s.device⟩
  | deactivate (s : SysState) (uid : String) :
      Step P s ⟨deactivate_user s.reg uid, s.vault, s.device⟩
  | reactivate (s : SysState) (uid : String) (e : Option Nat) :
      Step P s ⟨reactivate_user s.reg uid e, s.vault, s.device⟩
  | blockB (s : SysState) (uid : String) :
      Step P s (applyBlockB s uid)
  | unblockR (s : SysState) (uid : String) (e : Option Nat) :
      Step P s (applyUnblockR s uid e)
  | autoBlock (s : SysState) (uid reason : String) :
      Step P s (applyAutoBlock s uid reason)
  | autoUnblock (s : SysState) (uid : String) (e : Nat) :
      Step P s (applyAutoUnblock s uid e)
  | deviceEvolve (s : SysState) (d : Device) :
      Step P s ⟨s.reg, s.vault, d⟩

/-- States reachable from the empty registry and empty vault, next to
an arbitrary device. -/
inductive Reachable (P : String → Prop) : SysState → Prop where
  | init (d : Device) : Reachable P ⟨[], [], d⟩
  | step (s s' : SysState) : Reachable P s → Step P s s' → Reachable P s'

/-- The §3 invariant: `status = blocked` implies a vault snapshot for
that user id exists. -/
def BlockedOk (reg : Registry) (vault : TemplatesDB) : Prop :=
  ∀ uid r, alookup reg uid = some r → r.status = "blocked" →
    has_backup vault uid = true

/-- The invariant read off a combined state. -/
def BlockedImpliesSnapshot (s : SysState) : Prop :=
  BlockedOk s.reg s.vault

/-! ## Helper lemmas -/

/-- `backup_user_templates` either fails with no write, or overwrites
the snapshot under the requested id with one holding at least one
template. -/
theorem backup_spec (d : Device) (db : TemplatesDB) (uid : String) :
    backup_user_templates d db uid = (false, db) ∨
    ∃ u ts, findUser d.users uid = some u ∧
      ts = (d.templates.filter fun t => decide (t.uid = u.uid)) ∧ ts ≠ [] ∧
      backup_user_templates d db uid =
        (true, ainsert db uid ⟨u, ts.map storeTemplate⟩) := by
  unfold backup_user_templates
  cases h : findUser d.users uid with
  | none => exact Or.inl rfl
  | some u =>
    by_cases he : (d.templates.filter fun t => decide (t.uid = u.uid)).isEmpty
    · simp [he]
    · refine Or.inr ⟨u, _, rfl, rfl, ?_, ?_⟩
      · intro hnil
        rw [hnil] at he
        exact he rfl
      · simp [he]

theorem has_backup_ainsert (db : TemplatesDB) (k k' : String) (v : Snapshot) :
    has_backup (ainsert db k v) k' =
      (if k = k' then true else has_backup db k') := by
  by_cases h : k = k' <;> simp [has_backup, alookup_ainsert, h]

/-- The vault never loses a snapshot across this operation. -/
def VaultGrows (db db' : TemplatesDB) : Prop :=
  ∀ k, has_backup db k = true → has_backup db' k = true

theorem vaultGrows_refl (db : TemplatesDB) : VaultGrows db db := fun _ h => h

theorem vaultGrows_ainsert (db : TemplatesDB) (k : String) (v : Snapshot) :
    VaultGrows db (ainsert db k v) := by
  intro k' h
  rw [has_backup_ainsert]
  by_cases hk : k = k' <;> simp [hk, h]

/-- Backup only grows the vault. -/
theorem backup_user_templates_grows (d : Device) (db : TemplatesDB) (uid : String) :
    VaultGrows db (backup_user_templates d db uid).2 := by
  rcases backup_spec d db uid with h | ⟨u, ts, _, _, _, h⟩
  · rw [h]; exact vaultGrows_refl db
  · rw [h]; exact vaultGrows_ainsert db uid _

/-- On success, backup leaves a snapshot under the requested id. -/
theorem backup_user_templates_has (d : Device) (db : TemplatesDB) (uid : String)
    (h : (backup_user_templates d db uid).1 = true) :
    has_backup (backup_user_templates d db uid).2 uid = true := by
  rcases backup_spec d db uid with hcase | ⟨u, ts, _, _, _, hcase⟩
  · rw [hcase] at h; cases h
  · rw [hcase, has_backup_ainsert]; simp

/-- `block_user` never shrinks the vault and, on success, leaves a
snapshot under the blocked id. -/
theorem block_user_vault (d : Device) (db : TemplatesDB) (uid : String) :
    VaultGrows db (block_user d db uid).2.2 ∧
    ((block_user d db uid).1 = true →
      has_backup (block_user d db uid).2.2 uid = true) := by
  unfold block_user
  cases hb : backup_user_templates d db uid with
  | mk ok db' =>
    cases ok with
    | false =>
      refine ⟨?_, by simp⟩
      have := backup_user_templates_grows d db uid
      rw [hb] at this; exact this
    | true =>
      have hgrow : VaultGrows db db' := by
        have := backup_user_templates_grows d db uid
        rw [hb] at this; exact this
      have hhas : has_backup db' uid = true := by
        have := backup_user_templates_has d db uid (by rw [hb])
        rw [hb] at this; exact this
      cases hf : findUser d.users uid with
      | none => exact ⟨hgrow, by simp⟩
      | some u => exact ⟨hgrow, fun _ => hhas⟩

/-- `regUpdate` is either the identity (id not registered) or an
in-place overwrite of the registered record. -/
theorem regUpdate_spec (users : Registry) (uid : String)
    (f : MemberRecord → MemberRecord) :
    regUpdate users uid f = users ∨
    ∃ u, alookup users uid = some u ∧
      regUpdate users uid f = ainsert users uid (f u) := by
  unfold regUpdate
  cases h : alookup users uid with
  | none => exact Or.inl rfl
  | some u => exact Or.inr ⟨u, rfl, rfl⟩

/-- Inserting a non-blocked record preserves the invariant. -/
theorem blockedOk_ainsert_notBlocked (reg : Registry) (vault : TemplatesDB)
    (uid : String) (r : MemberRecord)
    (hinv : BlockedOk reg vault) (hr : r.status ≠ "blocked") :
    BlockedOk (ainsert reg uid r) vault := by
  intro uid' r' hl hs
  rw [alookup_ainsert] at hl
  by_cases h : uid = uid'
  · rw [if_pos h] at hl
    cases hl
    exact absurd hs hr
  · rw [if_neg h] at hl
    exact hinv uid' r' hl hs

/-- A grown vault keeps the invariant. -/
theorem blockedOk_grow (reg : Registry) (vault vault' : TemplatesDB)
    (hinv : BlockedOk reg vault) (hg : VaultGrows vault vault') :
    BlockedOk reg vault' :=
  fun uid r hl hs => hg uid (hinv uid r hl hs)

/-- Inserting any record under an id the (grown) vault covers
preserves the invariant. -/
theorem blockedOk_ainsert_covered (reg : Registry) (vault vault' : TemplatesDB)
    (uid : String) (r : MemberRecord)
    (hinv : BlockedOk reg vault) (hg : VaultGrows vault vault')
    (hcov : has_backup vault' uid = true) :
    BlockedOk (ainsert reg uid r) vault' := by
  intro uid' r' hl hs
  rw [alookup_ainsert] at hl
  by_cases h : uid = uid'
  · cases h; exact hcov
  · rw [if_neg h] at hl
    exact hg uid' (hinv uid' r' hl hs)

theorem expired_ne_blocked : ("expired" : String) ≠ "blocked" := by decide

theorem active_ne_blocked : ("active" : String) ≠ "blocked" := by decide

theorem inactive_ne_blocked : ("inactive" : String) ≠ "blocked" := by decide

theorem blockedOk_regUpdate_notBlocked (reg : Registry) (vault : TemplatesDB)
    (uid : String) (f : MemberRecord → MemberRecord)
    (hinv : BlockedOk reg vault) (hf : ∀ u, (f u).status ≠ "blocked") :
    BlockedOk (regUpdate reg uid f) vault := by
  rcases regUpdate_spec reg uid f with h | ⟨u, _, h⟩
  · rw [h]; exact hinv
  · rw [h]; exact blockedOk_ainsert_notBlocked _ _ _ _ hinv (hf u)

theorem blockedOk_regUpdate_covered (reg : Registry) (vault vault' : TemplatesDB)
    (uid : String) (f : MemberRecord → MemberRecord)
    (hinv : BlockedOk reg vault) (hg : VaultGrows vault vault')
    (hcov : has_backup vault' uid = true) :
    BlockedOk (regUpdate reg uid f) vault' := by
  rcases regUpdate_spec reg uid f with h | ⟨u, _, h⟩
  · rw [h]; exact blockedOk_grow _ _ _ hinv hg
  · rw [h]; exact blockedOk_ainsert_covered _ _ _ _ _ hinv hg hcov

/-- `validate_membership` leaves the registry unchanged or overwrites
the queried record with one that is not blocked (either freshly
expired, or with bumped visit statistics and therefore past the
blocked check). -/
theorem validate_membership_users_spec (users : Registry) (uid : String) (now : Nat) :
    (validate_membership users uid now).users = users ∨
    ∃ u', u'.status ≠ "blocked" ∧
      (validate_membership users uid now).users = ainsert users uid u' := by
  unfold validate_membership
  cases h : alookup users uid with
  | none => exact Or.inl rfl
  | some u =>
    by_cases h1 : u.status = "inactive"
    · simp [h1]
    · by_cases h2 : u.status = "blocked"
      · simp [h1, h2]
      · cases he : u.expiration_date with
        | none => simp [h1, h2, he]
        | some e =>
          by_cases hlt : e * daySecs < now
          · right
            refine ⟨{ u with status := "expired" }, expired_ne_blocked, ?_⟩
            simp [h1, h2, he, hlt]
          · right
            refine ⟨{ u with
                      last_visit := some now
                      visit_count := u.visit_count + 1 }, h2, ?_⟩
            simp [h1, h2, he, hlt]

/-- `update_expiration` leaves the registry unchanged or overwrites
the record with an active one. -/
theorem update_expiration_spec (users : Registry) (uid : String) (e : Nat) :
    (update_expiration users uid e).2 = users ∨
    ∃ u', u'.status ≠ "blocked" ∧
      (update_expiration users uid e).2 = ainsert users uid u' := by
  unfold update_expiration
  cases h : alookup users uid with
  | none => exact Or.inl rfl
  | some u =>
    exact Or.inr ⟨{ u with expiration_date := some e, status := "active" },
      active_ne_blocked, rfl⟩

/-- Every public operation whose `add` status is not `"blocked"`
preserves the blocked-implies-snapshot invariant. -/
theorem step_preserves_blockedOk (s s' : SysState)
    (h : Step (fun st => st ≠ "blocked") s s')
    (hinv : BlockedImpliesSnapshot s) : BlockedImpliesSnapshot s' := by
  cases h with
  | add uid name exp status hP =>
    show BlockedOk (add_user s.reg uid name exp status) s.vault
    unfold add_user
    exact blockedOk_ainsert_notBlocked _ _ _ _ hinv hP
  | validate uid now =>
    show BlockedOk (validate_membership s.reg uid now).users s.vault
    rcases validate_membership_users_spec s.reg uid now with h | ⟨u', hu', h⟩
    · rw [h]; exact hinv
    · rw [h]; exact blockedOk_ainsert_notBlocked _ _ _ _ hinv hu'
  | renew uid e =>
    show BlockedOk (update_expiration s.reg uid e).2 s.vault
    rcases update_expiration_spec s.reg uid e with h | ⟨u', hu', h⟩
    · rw [h]; exact hinv
    · rw [h]; exact blockedOk_ainsert_notBlocked _ _ _ _ hinv hu'
  | deactivate uid =>
    show BlockedOk (deactivate_user s.reg uid) s.vault
    exact blockedOk_regUpdate_notBlocked _ _ _ _ hinv fun u => inactive_ne_blocked
  | reactivate uid e =>
    show BlockedOk (reactivate_user s.reg uid e) s.vault
    exact blockedOk_regUpdate_notBlocked _ _ _ _ hinv fun u => active_ne_blocked
  | blockB uid =>
    show BlockedImpliesSnapshot (applyBlockB s uid)
    unfold applyBlockB block_user_with_backup
    have hvault := block_user_vault s.device s.vault uid
    cases hb : block_user s.device s.vault uid with
    | mk ok rest =>
      obtain ⟨d', db'⟩ := rest
      rw [hb] at hvault
      cases ok with
      | false => exact blockedOk_grow _ _ _ hinv hvault.1
      | true =>
        exact blockedOk_regUpdate_covered _ _ _ _ _ hinv hvault.1 (hvault.2 rfl)
  | unblockR uid e =>
    show BlockedImpliesSnapshot (applyUnblockR s uid e)
    unfold applyUnblockR unblock_user_with_restore
    cases hu : unblock_user s.device s.vault uid with
    | mk ok d' =>
      cases ok with
      | false => exact hinv
      | true =>
        exact blockedOk_regUpdate_notBlocked _ _ _ _ hinv fun u => active_ne_blocked
  | autoBlock uid reason =>
    show BlockedImpliesSnapshot (applyAutoBlock s uid reason)
    unfold applyAutoBlock block_user_automatically
    cases hh : has_backup s.vault uid with
    | true =>
      simp only [hh, if_true]
      cases hf : findUser s.device.users uid with
      | none => exact hinv
      | some u =>
        exact blockedOk_regUpdate_covered _ _ _ _ _ hinv (vaultGrows_refl _) hh
    | false =>
      simp only [hh, Bool.false_eq_true, if_false]
      rcases backup_spec s.device s.vault uid with hc | ⟨u, ts, _, _, _, hc⟩
      · rw [hc]; exact hinv
      · rw [hc]
        have hgrow : VaultGrows s.vault
            (ainsert s.vault uid ⟨u, ts.map storeTemplate⟩) :=
          vaultGrows_ainsert _ _ _
        have hcov : has_backup
            (ainsert s.vault uid ⟨u, ts.map storeTemplate⟩) uid = true := by
          rw [has_backup_ainsert]; simp
        cases hf : findUser s.device.users uid with
        | none => exact blockedOk_grow _ _ _ hinv hgrow
        | some u' =>
          exact blockedOk_regUpdate_covered _ _ _ _ _ hinv hgrow hcov
  | autoUnblock uid e =>
    show BlockedImpliesSnapshot (applyAutoUnblock s uid e)
    unfold applyAutoUnblock unblock_user_automatically
    cases hr : restore_user_templates s.device s.vault uid with
    | mk ok d' =>
      cases ok with
      | false => exact hinv
      | true =>
        exact blockedOk_regUpdate_notBlocked _ _ _ _ hinv fun u => active_ne_blocked
  | deviceEvolve d => exact hinv

/-- Ascending order of a batch by timestamp. -/
def TsLe (a b : AttRecord) : Prop := a.timestamp ≤ b.timestamp

theorem insertByTs_perm (r : AttRecord) (l : List AttRecord) :
    (insertByTs r l).Perm (r :: l) := by
  induction l with
  | nil => simp [insertByTs]
  | cons s rest ih =>
    simp only [insertByTs]
    by_cases h : s.timestamp ≤ r.timestamp
    · rw [if_pos h]
      exact (List.Perm.cons s ih).trans (List.Perm.swap r s rest)
    · rw [if_neg h]

theorem sortByTs_perm (l : List AttRecord) : (sortByTs l).Perm l := by
  induction l with
  | nil => simp [sortByTs]
  | cons r rest ih =>
    simp only [sortByTs]
    exact (insertByTs_perm r (sortByTs rest)).trans (List.Perm.cons r ih)

theorem insertByTs_pairwise (r : AttRecord) (l : List AttRecord)
    (h : l.Pairwise TsLe) : (insertByTs r l).Pairwise TsLe := by
  induction l with
  | nil => simp [insertByTs, List.pairwise_cons]
  | cons s rest ih =>
    rcases List.pairwise_cons.mp h with ⟨hs, hrest⟩
    simp only [insertByTs]
    by_cases hle : s.timestamp ≤ r.timestamp
    · rw [if_pos hle]
      refine List.pairwise_cons.mpr ⟨?_, ih hrest⟩
      intro b hb
      rcases List.mem_cons.mp ((insertByTs_perm r rest).mem_iff.mp hb) with hb' | hb'
      · rw [hb']; exact hle
      · exact hs b hb'
    · rw [if_neg hle]
      have hr : TsLe r s := Nat.le_of_lt (Nat.lt_of_not_le hle)
      refine List.pairwise_cons.mpr ⟨?_, h⟩
      intro b hb
      rcases List.mem_cons.mp hb with hb' | hb'
      · rw [hb']; exact hr
      · exact Nat.le_trans hr (hs b hb')

theorem sortByTs_pairwise (l : List AttRecord) : (sortByTs l).Pairwise TsLe := by
  induction l with
  | nil => simp [sortByTs]
  | cons r rest ih =>
    simp only [sortByTs]
    exact insertByTs_pairwise r (sortByTs rest) ih

/-- The fold `for record in batch: last = record.timestamp` keeps the
prior mark on an empty batch and otherwise ends at a timestamp of the
batch. -/
theorem pollFold_mem (l : List AttRecord) (m : Nat) :
    l.foldl (fun _ r => r.timestamp) m = m ∨
      l.foldl (fun _ r => r.timestamp) m ∈ l.map fun r => r.timestamp := by
  induction l generalizing m with
  | nil => exact Or.inl rfl
  | cons r rest ih =>
    simp only [List.foldl_cons, List.map_cons]
    rcases ih r.timestamp with h | h
    · right; rw [h]; exact List.mem_cons_self _ _
    · right; exact List.mem_cons_of_mem _ h

/-- In an ascending batch, the fold ends at a timestamp bounding every
processed record. -/
theorem pollFold_bound (l : List AttRecord) (m : Nat) (hp : l.Pairwise TsLe) :
    ∀ x ∈ l, x.timestamp ≤ l.foldl (fun _ r => r.timestamp) m := by
  induction l generalizing m with
  | nil => intro x hx; cases hx
  | cons r rest ih =>
    rcases List.pairwise_cons.mp hp with ⟨hr, hrest⟩
    intro x hx
    simp only [List.foldl_cons]
    rcases List.mem_cons.mp hx with hx' | hx'
    · subst hx'
      rcases pollFold_mem rest x.timestamp with h | h
      · rw [h]
      · rcases List.mem_map.mp h with ⟨y, hy, hEq⟩
        rw [← hEq]; exact hr y hy
    · exact ih r.timestamp hrest x hx'

/-- Folding `Nat.max` computes an upper bound attained by the list. -/
theorem foldlMax_spec (t : Nat) (ts : List Nat) :
    ts.foldl Nat.max t ∈ t :: ts ∧ ∀ x ∈ t :: ts, x ≤ ts.foldl Nat.max t := by
  induction ts generalizing t with
  | nil =>
    refine ⟨List.mem_cons_self _ _, ?_⟩
    intro x hx
    rcases List.mem_cons.mp hx with h | h
    · exact Nat.le_of_eq h
    · cases h
  | cons a ts ih =>
    obtain ⟨ihmem, ihbound⟩ := ih (Nat.max t a)
    simp only [List.foldl_cons]
    constructor
    · have hm : Nat.max t a = t ∨ Nat.max t a = a := by
        by_cases hc : t ≤ a
        · exact Or.inr (Nat.max_eq_right hc)
        · exact Or.inl (Nat.max_eq_left (Nat.le_of_not_le hc))
      rcases List.mem_cons.mp ihmem with h | h
      · rcases hm with hm | hm
        · rw [hm] at h ⊢; rw [h]; exact List.mem_cons_self _ _
        · rw [hm] at h ⊢; rw [h]
          exact List.mem_cons_of_mem _ (List.mem_cons_self _ _)
      · exact List.mem_cons_of_mem _ (List.mem_cons_of_mem _ h)
    · intro x hx
      rcases List.mem_cons.mp hx with h | h
      · subst h
        exact Nat.le_trans (Nat.le_max_left x a) (ihbound _ (List.mem_cons_self _ _))
      · rcases List.mem_cons.mp h with h' | h'
        · subst h'
          exact Nat.le_trans (Nat.le_max_right t x) (ihbound _ (List.mem_cons_self _ _))
        · exact ihbound x (List.mem_cons_of_mem _ h')

/-- A failed backup writes nothing. -/
theorem backup_fail_eq (d : Device) (db : TemplatesDB) (uid : String)
    (h : (backup_user_templates d db uid).1 = false) :
    backup_user_templates d db uid = (false, db) := by
  rcases backup_spec d db uid with hc | ⟨u, ts, _, _, _, hc⟩
  · exact hc
  · rw [hc] at h; cases h

/-- Full case analysis of `TemplateManager.block_user`. -/
theorem block_user_cases (d : Device) (db : TemplatesDB) (uid : String) :
    (block_user d db uid = (false, d, db) ∧
      (backup_user_templates d db uid).1 = false) ∨
    (∃ u db', findUser d.users uid = some u ∧
      backup_user_templates d db uid = (true, db') ∧
      block_user d db uid = (true, delete_user d u.uid, db')) := by
  rcases backup_spec d db uid with hc | ⟨u, ts, hfind, _, _, hc⟩
  · left
    refine ⟨?_, by rw [hc]⟩
    unfold block_user
    rw [hc]
  · right
    refine ⟨u, ainsert db uid ⟨u, ts.map storeTemplate⟩, hfind, hc, ?_⟩
    unfold block_user
    rw [hc, hfind]

/-! ## Claim theorems -/

/-- **C1.** For every device state, vault store and user id,
`TemplateManager.block_user` attempts the backup first: whenever the
backup does not succeed, it returns `false` with the device and the
vault untouched (no delete is issued); the device user is deleted only
after a successful backup, and whenever `block_user` returns `true`
the backup succeeded, so a vault snapshot for that user id exists in
the resulting store at the moment of the delete. -/
theorem C1_block_user_backup_before_delete (d : Device) (db : TemplatesDB)
    (uid : String) :
    ((backup_user_templates d db uid).1 = false →
      block_user d db uid = (false, d, db)) ∧
    ((block_user d db uid).1 = false → (block_user d db uid).2.1 = d) ∧
    ((block_user d db uid).1 = true →
      (backup_user_templates d db uid).1 = true ∧
      has_backup (block_user d db uid).2.2 uid = true) := by
  rcases block_user_cases d db uid with ⟨hblk, hbak⟩ | ⟨u, db', hfind, hbak, hblk⟩
  · refine ⟨fun _ => hblk, fun _ => by rw [hblk], fun h => ?_⟩
    rw [hblk] at h; cases h
  · refine ⟨fun h => ?_, fun h => ?_, fun _ => ⟨by rw [hbak], ?_⟩⟩
    · rw [hbak] at h; cases h
    · rw [hblk] at h; cases h
    · rw [hblk]
      have hh := backup_user_templates_has d db uid (by rw [hbak])
      rw [hbak] at hh
      exact hh

/-- Witness for C1: on an empty device the backup fails and block
leaves everything untouched; on a device holding user `"7"` with one
template, block succeeds and the resulting vault covers `"7"`. -/
theorem C1_witness :
    block_user ⟨[], []⟩ [] "7" = (false, ⟨[], []⟩, []) ∧
    ((backup_user_templates
        ⟨[⟨1, "A", 0, "", "", "7", 0⟩], [⟨1, 0, 1, [170], ""⟩]⟩ [] "7").1 = true ∧
      has_backup (block_user
        ⟨[⟨1, "A", 0, "", "", "7", 0⟩], [⟨1, 0, 1, [170], ""⟩]⟩ [] "7").2.2 "7" = true) :=
  ⟨(C1_block_user_backup_before_delete ⟨[], []⟩ [] "7").1 (by decide),
   (C1_block_user_backup_before_delete
      ⟨[⟨1, "A", 0, "", "", "7", 0⟩], [⟨1, 0, 1, [170], ""⟩]⟩ [] "7").2.2 (by decide)⟩

/-- **C9.** `TemplateManager.backup_user_templates` succeeds exactly
when the user is enrolled on the device with at least one template; on
failure the vault store is unchanged (no write); on success it
overwrites the snapshot under that user id with one holding the
captured (nonempty) template list. -/
theorem C9_backup_exactly_when_templates (d : Device) (db : TemplatesDB)
    (uid : String) :
    ((backup_user_templates d db uid).1 = true ↔
      ∃ u, findUser d.users uid = some u ∧
        (d.templates.filter fun t => decide (t.uid = u.uid)) ≠ []) ∧
    ((backup_user_templates d db uid).1 = false →
      (backup_user_templates d db uid).2 = db) ∧
    ((backup_user_templates d db uid).1 = true →
      ∃ u snapTs, findUser d.users uid = some u ∧ snapTs ≠ [] ∧
        (backup_user_templates d db uid).2 =
          ainsert db uid ⟨u, snapTs.map storeTemplate⟩) := by
  refine ⟨⟨?_, ?_⟩, ?_, ?_⟩
  · intro h
    rcases backup_spec d db uid with hc | ⟨u, ts, hfind, hts, htsne, hc⟩
    · rw [hc] at h; cases h
    · exact ⟨u, hfind, by rw [← hts]; exact htsne⟩
  · rintro ⟨u, hfind, hne⟩
    unfold backup_user_templates
    rw [hfind]
    have : (d.templates.filter fun t => decide (t.uid = u.uid)).isEmpty = false := by
      cases hq : d.templates.filter fun t => decide (t.uid = u.uid) with
      | nil => exact absurd hq hne
      | cons a l => rfl
    simp [this]
  · intro h
    rw [backup_fail_eq d db uid h]
  · intro h
    rcases backup_spec d db uid with hc | ⟨u, ts, hfind, hts, htsne, hc⟩
    · rw [hc] at h; cases h
    · exact ⟨u, ts, hfind, htsne, by rw [hc]⟩

/-- Witness for C9: with user `"7"` enrolled and one template, backup
succeeds and writes a one-template snapshot. -/
theorem C9_witness :
    ∃ u snapTs, findUser [⟨1, "A", 0, "", "", "7", 0⟩] "7" = some u ∧
      snapTs ≠ [] ∧
      (backup_user_templates
          ⟨[⟨1, "A", 0, "", "", "7", 0⟩], [⟨1, 0, 1, [170], ""⟩]⟩ [] "7").2 =
        ainsert [] "7" ⟨u, snapTs.map storeTemplate⟩ :=
  (C9_backup_exactly_when_templates
      ⟨[⟨1, "A", 0, "", "", "7", 0⟩], [⟨1, 0, 1, [170], ""⟩]⟩ [] "7").2.2 (by decide)

/-- **C10.** `AutoBlockManager.block_user_automatically` skips the
fresh backup whenever a snapshot already exists — the vault comes out
unchanged and the device user is deleted relying on the pre-existing
(possibly stale) snapshot — and captures a fresh backup inside the
block only when no snapshot exists at all. -/
theorem C10_autoblock_reuses_existing_snapshot (reg : Registry) (db : TemplatesDB)
    (d : Device) (uid reason : String) :
    (has_backup db uid = true →
      (block_user_automatically reg db d uid reason).2.2.1 = db ∧
      (∀ u, findUser d.users uid = some u →
        block_user_automatically reg db d uid reason =
          (true,
           regUpdate reg uid (fun m =>
             { m with status := "blocked", block_reason := some reason }),
           db, delete_user d u.uid))) ∧
    (has_backup db uid = false →
      ((backup_user_templates d db uid).1 = false →
        block_user_automatically reg db d uid reason = (false, reg, db, d)) ∧
      ((backup_user_templates d db uid).1 = true →
        (block_user_automatically reg db d uid reason).2.2.1 =
          (backup_user_templates d db uid).2)) := by
  constructor
  · intro hh
    unfold block_user_automatically
    rw [hh]
    simp only [if_true]
    constructor
    · cases hf : findUser d.users uid <;> rfl
    · intro u hf
      rw [hf]
  · intro hh
    unfold block_user_automatically
    rw [hh]
    simp only [Bool.false_eq_true, if_false]
    constructor
    · intro hbf
      rw [backup_fail_eq d db uid hbf]
    · intro hbt
      rcases backup_spec d db uid with hc | ⟨u, ts, hfind, _, _, hc⟩
      · rw [hc] at hbt; cases hbt
      · rw [hc, hfind]

/-- Witness for C10: with a pre-existing snapshot for `"7"` the block
succeeds with the vault unchanged, deleting the device user. -/
theorem C10_witness :
    block_user_automatically [] [("7", ⟨⟨1, "A", 0, "", "", "7", 0⟩, []⟩)]
        ⟨[⟨1, "A", 0, "", "", "7", 0⟩], [⟨1, 0, 1, [170], ""⟩]⟩ "7" "r" =
      (true,
       regUpdate [] "7" (fun m =>
         { m with status := "blocked", block_reason := some "r" }),
       [("7", ⟨⟨1, "A", 0, "", "", "7", 0⟩, []⟩)],
       delete_user ⟨[⟨1, "A", 0, "", "", "7", 0⟩], [⟨1, 0, 1, [170], ""⟩]⟩ 1) :=
  (((C10_autoblock_reuses_existing_snapshot []
      [("7", ⟨⟨1, "A", 0, "", "", "7", 0⟩, []⟩)]
      ⟨[⟨1, "A", 0, "", "", "7", 0⟩], [⟨1, 0, 1, [170], ""⟩]⟩ "7" "r").1
    (by decide)).2 ⟨1, "A", 0, "", "", "7", 0⟩ (by decide))

/-- **C3.** The claim says `validar_acceso` always returns a decision
dict and retries the 401 re-authentication exactly once.  The code
disagrees on both counts: an HTTP 401 whose re-login fails falls off
the end of the `if/elif` chain and returns Python `None` (first
conjunct), and repeated 401s with successful re-logins recurse and
retry more than once (second conjunct: two 401s, two retries, then the
third query's answer is returned). -/
theorem C3_validar_acceso_divergence :
    validar_acceso true [false] [HttpResp.unauthorized] = none ∧
    validar_acceso true [true, true]
        [HttpResp.unauthorized, HttpResp.unauthorized,
         HttpResp.ok ⟨"OK", "allow", ""⟩] =
      some ⟨"OK", "allow", ""⟩ :=
  ⟨rfl, rfl⟩

/-- **C2 (counterexample).** The invariant fails for the claim's
reachability: `add_user` accepts an arbitrary status (the dashboard's
edit dialog passes `'blocked'` from its combo box), so one `add` from
the empty state yields a record with status `"blocked"` and no vault
snapshot. -/
theorem C2_counterexample :
    Reachable (fun _ => True)
      ⟨add_user [] "1" "Ana" (some 100) "blocked", [], ⟨[], []⟩⟩ ∧
    ¬ BlockedImpliesSnapshot
      ⟨add_user [] "1" "Ana" (some 100) "blocked", [], ⟨[], []⟩⟩ := by
  constructor
  · exact .step _ _ (.init ⟨[], []⟩) (.add _ "1" "Ana" (some 100) "blocked" trivial)
  · intro h
    have hb := h "1"
      { user_id := "1", name := "Ana", expiration_date := some 100,
        status := "blocked", last_visit := none, visit_count := 0,
        block_reason := none }
      (by simp [add_user, ainsert, alookup]) rfl
    simp [has_backup, alookup] at hb

/-- **C2 (amended).** In every state reachable from the empty registry
through the public operations where `add` is never handed the literal
status `"blocked"`, every record whose status is `"blocked"` has an
existing vault snapshot for its user id. -/
theorem C2_blocked_has_snapshot (s : SysState)
    (h : Reachable (fun st => st ≠ "blocked") s) :
    BlockedImpliesSnapshot s := by
  induction h with
  | init d =>
    intro uid r hl _
    simp [alookup] at hl
  | step t t' _ hstep ih => exact step_preserves_blockedOk t t' hstep ih

/-- Witness for C2: a concrete reachable state (one registration
followed by a device change) satisfies the invariant. -/
theorem C2_witness :
    BlockedImpliesSnapshot
      ⟨add_user [] "1" "Ana" (some 100) "active", [], ⟨[], []⟩⟩ :=
  C2_blocked_has_snapshot _
    (.step _ _ (.init ⟨[], []⟩) (.add _ "1" "Ana" (some 100) "active" (by decide)))

/-- **C4.** For a registered record with status `"active"` and an
expiration date strictly before the current date, one
`validate_membership` call denies, sets the status to `"expired"` and
persists; with a future expiration date it allows, increments
`visit_count` by one, stamps `last_visit` and persists. -/
theorem C4_lazy_expiry (users : Registry) (uid : String) (u : MemberRecord)
    (now e : Nat)
    (hl : alookup users uid = some u)
    (hstatus : u.status = "active")
    (hexp : u.expiration_date = some e) :
    (e < now / daySecs →
      validate_membership users uid now =
        ⟨false, "Membresía vencida desde " ++ toString e,
          ainsert users uid { u with status := "expired" }, true⟩) ∧
    (now / daySecs < e →
      validate_membership users uid now =
        ⟨true, "Membresía activa hasta " ++ toString e,
          ainsert users uid
            { u with last_visit := some now, visit_count := u.visit_count + 1 },
          true⟩) := by
  have h1 : ¬ u.status = "inactive" := by rw [hstatus]; decide
  have h2 : ¬ u.status = "blocked" := by rw [hstatus]; decide
  constructor
  · intro hpast
    have hcmp : e * daySecs < now := by
      simp only [daySecs] at *
      omega
    unfold validate_membership
    rw [hl]
    simp [h1, h2, hexp, hcmp]
  · intro hfut
    have hcmp : ¬ e * daySecs < now := by
      simp only [daySecs] at *
      omega
    unfold validate_membership
    rw [hl]
    simp [h1, h2, hexp, hcmp]

/-- Witness for C4: user `"1"`, active, expiration day 100; at a time
on day 101 validate denies and expires the record. -/
theorem C4_witness :
    validate_membership
        [("1", { user_id := "1", name := "Ana", expiration_date := some 100,
                 status := "active", last_visit := none, visit_count := 0,
                 block_reason := none })] "1" (101 * 86400 + 5) =
      ⟨false, "Membresía vencida desde " ++ toString 100,
        ainsert
          [("1", { user_id := "1", name := "Ana", expiration_date := some 100,
                   status := "active", last_visit := none, visit_count := 0,
                   block_reason := none })] "1"
          { user_id := "1", name := "Ana", expiration_date := some 100,
            status := "expired", last_visit := none, visit_count := 0,
            block_reason := none },
        true⟩ :=
  (C4_lazy_expiry _ "1"
    { user_id := "1", name := "Ana", expiration_date := some 100,
      status := "active", last_visit := none, visit_count := 0,
      block_reason := none }
    (101 * 86400 + 5) 100 (by decide) rfl rfl).1 (by decide)

/-- **C7.** `AutoBlockManager.should_block_user` decides by first-match
precedence: unregistered id → `false`; status `"blocked"` → `true`;
status `"inactive"` → `true`; no expiration date → `true`; expiration
date `k ≥ 1` days in the past → `true` with `k` in the reason;
otherwise (not yet expired) → `false`. -/
theorem C7_should_block_precedence (memberships : Registry) (uid : String)
    (m : MemberRecord) (now : Nat) :
    (alookup memberships uid = none →
      should_block_user memberships uid now =
        (false, "Usuario no registrado en sistema local")) ∧
    (alookup memberships uid = some m →
      ((m.status = "blocked" →
          should_block_user memberships uid now = (true, "Ya está bloqueado")) ∧
       (m.status ≠ "blocked" → m.status = "inactive" →
          should_block_user memberships uid now = (true, "Usuario inactivo")) ∧
       (m.status ≠ "blocked" → m.status ≠ "inactive" → m.expiration_date = none →
          should_block_user memberships uid now =
            (true, "Sin fecha de vencimiento")) ∧
       (∀ e k, m.status ≠ "blocked" → m.status ≠ "inactive" →
          m.expiration_date = some e → now / daySecs = e + k → 0 < k →
          should_block_user memberships uid now =
            (true, "Membresía vencida hace " ++ toString k ++ " días")) ∧
       (∀ e, m.status ≠ "blocked" → m.status ≠ "inactive" →
          m.expiration_date = some e → ¬ e * daySecs < now →
          should_block_user memberships uid now = (false, "Membresía activa")))) := by
  constructor
  · intro hn
    unfold should_block_user
    rw [hn]
  · intro hm
    refine ⟨?_, ?_, ?_, ?_, ?_⟩
    · intro hb
      unfold should_block_user
      rw [hm]
      simp [hb]
    · intro hb hi
      unfold should_block_user
      rw [hm]
      simp [hb, hi]
    · intro hb hi he
      unfold should_block_user
      rw [hm]
      simp [hb, hi, he]
    · intro e k hb hi he hday hk
      have hcmp : e * daySecs < now := by
        simp only [daySecs] at *
        omega
      have hdays : (now - e * daySecs) / daySecs = k := by
        simp only [daySecs] at *
        omega
      unfold should_block_user
      rw [hm]
      simp [hb, hi, he, hcmp, hdays]
    · intro e hb hi he hcmp
      unfold should_block_user
      rw [hm]
      simp [hb, hi, he, hcmp]

/-- Witness for C7: a record whose expiration lies 10 days in the past
is blocked with a reason referencing 10 days. -/
theorem C7_witness :
    should_block_user
        [("1", { user_id := "1", name := "Ana", expiration_date := some 100,
                 status := "active", last_visit := none, visit_count := 0,
                 block_reason := none })] "1" (110 * 86400 + 3600) =
      (true, "Membresía vencida hace " ++ toString 10 ++ " días") :=
  ((C7_should_block_precedence _ "1"
      { user_id := "1", name := "Ana", expiration_date := some 100,
        status := "active", last_visit := none, visit_count := 0,
        block_reason := none } (110 * 86400 + 3600)).2
    (by decide)).2.2.2.1 100 10 (by decide) (by decide) rfl (by decide) (by decide)

/-- The per-record fold of a nonempty batch lands on a timestamp of
the batch. -/
theorem pollFold_mem_ne (l : List AttRecord) (m : Nat) (h : l ≠ []) :
    l.foldl (fun _ r => r.timestamp) m ∈ l.map fun r => r.timestamp := by
  induction l generalizing m with
  | nil => exact absurd rfl h
  | cons r rest ih =>
    simp only [List.foldl_cons, List.map_cons]
    cases rest with
    | nil => simp
    | cons a l' =>
      exact List.mem_cons_of_mem _ (ih r.timestamp (List.cons_ne_nil a l'))

/-- **C5.** One polling pass processes exactly the device records with
timestamp strictly above the mark, in ascending timestamp order, and
afterwards the mark equals the maximum processed timestamp (it is
unchanged when nothing qualifies); on activation with no prior mark,
the mark initializes to the maximum existing device timestamp, or to
the current time when the device has no records. -/
theorem C5_poll_order_and_mark (mark now : Nat) (records : List AttRecord) :
    ((poll_and_process_records mark records).1.Perm
        (records.filter fun r => decide (mark < r.timestamp))) ∧
    ((poll_and_process_records mark records).1.Pairwise TsLe) ∧
    (∀ r, r ∈ (poll_and_process_records mark records).1 ↔
        r ∈ records ∧ mark < r.timestamp) ∧
    ((poll_and_process_records mark records).1 ≠ [] →
      (poll_and_process_records mark records).2 ∈
          (poll_and_process_records mark records).1.map (fun r => r.timestamp) ∧
        ∀ r ∈ (poll_and_process_records mark records).1,
          r.timestamp ≤ (poll_and_process_records mark records).2) ∧
    ((poll_and_process_records mark records).1 = [] →
      (poll_and_process_records mark records).2 = mark) ∧
    (initialize_polling_timestamp none ([] : List AttRecord) now = now) ∧
    (records ≠ [] →
      initialize_polling_timestamp none records now ∈
          records.map (fun r => r.timestamp) ∧
        ∀ r ∈ records, r.timestamp ≤ initialize_polling_timestamp none records now) := by
  have hpoll : poll_and_process_records mark records =
      (sortByTs (records.filter fun r => decide (mark < r.timestamp)),
       (sortByTs (records.filter fun r => decide (mark < r.timestamp))).foldl
         (fun _ r => r.timestamp) mark) := rfl
  rw [hpoll]
  refine ⟨?_, ?_, ?_, ?_, ?_, rfl, ?_⟩
  · exact sortByTs_perm _
  · exact sortByTs_pairwise _
  · intro r
    rw [(sortByTs_perm _).mem_iff, List.mem_filter]
    simp [decide_eq_true_eq]
  · intro hne
    exact ⟨pollFold_mem_ne _ mark hne, pollFold_bound _ mark (sortByTs_pairwise _)⟩
  · intro hemp
    simp only at hemp ⊢
    rw [hemp]
    rfl
  · intro hne
    unfold initialize_polling_timestamp
    cases hmap : records.map (fun r => r.timestamp) with
    | nil => exact absurd (List.map_eq_nil_iff.mp hmap) hne
    | cons t ts' =>
      obtain ⟨hmem, hbound⟩ := foldlMax_spec t ts'
      refine ⟨hmem, ?_⟩
      intro r hr
      have hin : r.timestamp ∈ t :: ts' := by
        rw [← hmap]; exact List.mem_map_of_mem _ hr
      exact hbound _ hin

/-- Witness for C5: mark 5 over records at 7, 3, 6 processes 6 then 7
and advances the mark to 7; with no prior mark the same records
initialize the mark to 7. -/
theorem C5_witness :
    ((poll_and_process_records 5
          [⟨"a", 7⟩, ⟨"b", 3⟩, ⟨"c", 6⟩]).2 ∈
        (poll_and_process_records 5
          [⟨"a", 7⟩, ⟨"b", 3⟩, ⟨"c", 6⟩]).1.map (fun r => r.timestamp) ∧
      ∀ r ∈ (poll_and_process_records 5 [⟨"a", 7⟩, ⟨"b", 3⟩, ⟨"c", 6⟩]).1,
        r.timestamp ≤ (poll_and_process_records 5 [⟨"a", 7⟩, ⟨"b", 3⟩, ⟨"c", 6⟩]).2) ∧
    (initialize_polling_timestamp none [⟨"a", 7⟩, ⟨"b", 3⟩, ⟨"c", 6⟩] 0 ∈
        ([⟨"a", 7⟩, ⟨"b", 3⟩, ⟨"c", 6⟩] : List AttRecord).map (fun r => r.timestamp) ∧
      ∀ r ∈ ([⟨"a", 7⟩, ⟨"b", 3⟩, ⟨"c", 6⟩] : List AttRecord),
        r.timestamp ≤ initialize_polling_timestamp none [⟨"a", 7⟩, ⟨"b", 3⟩, ⟨"c", 6⟩] 0) :=
  ⟨(C5_poll_order_and_mark 5 0 [⟨"a", 7⟩, ⟨"b", 3⟩, ⟨"c", 6⟩]).2.2.2.1 (by decide),
   (C5_poll_order_and_mark 5 0 [⟨"a", 7⟩, ⟨"b", 3⟩, ⟨"c", 6⟩]).2.2.2.2.2.2 (by decide)⟩

/-- **C6.** Re-polling with no new device records in between processes
nothing: after one pass, a second pass over the same records filters
out everything. -/
theorem C6_repoll_processes_nothing (mark : Nat) (records : List AttRecord) :
    (poll_and_process_records
        (poll_and_process_records mark records).2 records).1 = [] := by
  have key : ∀ r ∈ records, r.timestamp ≤ (poll_and_process_records mark records).2 := by
    intro r hr
    by_cases hgt : mark < r.timestamp
    · have hrb : r ∈ sortByTs (records.filter fun x => decide (mark < x.timestamp)) := by
        apply (sortByTs_perm _).mem_iff.mpr
        exact List.mem_filter.mpr ⟨hr, by simp [hgt]⟩
      exact pollFold_bound _ mark (sortByTs_pairwise _) r hrb
    · have hle : r.timestamp ≤ mark := Nat.le_of_not_lt hgt
      have hm : mark ≤ (sortByTs (records.filter fun x =>
          decide (mark < x.timestamp))).foldl (fun _ r => r.timestamp) mark := by
        rcases pollFold_mem
            (sortByTs (records.filter fun x => decide (mark < x.timestamp))) mark with
          h | h
        · exact Nat.le_of_eq h.symm
        · rcases List.mem_map.mp h with ⟨y, hy, hEq⟩
          have hyf : y ∈ records.filter fun x => decide (mark < x.timestamp) :=
            (sortByTs_perm _).mem_iff.mp hy
          have hygt : mark < y.timestamp := by
            have := (List.mem_filter.mp hyf).2
            simpa [decide_eq_true_eq] using this
          rw [hEq] at hygt
          exact Nat.le_of_lt hygt
      exact Nat.le_trans hle hm
  show sortByTs (records.filter fun r =>
      decide ((poll_and_process_records mark records).2 < r.timestamp)) = []
  have hfil : records.filter (fun r =>
      decide ((poll_and_process_records mark records).2 < r.timestamp)) = [] := by
    apply List.filter_eq_nil_iff.mpr
    intro a ha
    simp only [decide_eq_true_eq]
    exact Nat.not_lt.mpr (key a ha)
  rw [hfil]
  rfl

/-- Decoding a snapshot whose payloads are well-formed hex succeeds,
preserving slot ids, count and (re-encoded) payloads. -/
theorem decodeStored_spec (ts : List StoredTemplate)
    (hhex : ∀ t ∈ ts, ∃ bs, (∀ b ∈ bs, b < 256) ∧ t.template = bytesToHex bs) :
    ∃ ds, decodeStored ts = some ds ∧
      ds.map (fun f => f.uid) = ts.map (fun t => t.uid) ∧
      ds.map (fun f => bytesToHex f.template) = ts.map (fun t => t.template) ∧
      ds.length = ts.length := by
  induction ts with
  | nil => exact ⟨[], rfl, rfl, rfl, rfl⟩
  | cons t rest ih =>
    obtain ⟨bs, hbs, htm⟩ := hhex t (List.mem_cons_self _ _)
    obtain ⟨ds, hds, huid, henc, hlen⟩ :=
      ih fun x hx => hhex x (List.mem_cons_of_mem _ hx)
    refine ⟨{ uid := t.uid, fid := t.fid, valid := t.valid,
              template := bs, mark := "" } :: ds, ?_, ?_, ?_, ?_⟩
    · simp only [decodeStored, htm, hexToBytes_bytesToHex bs hbs, hds]
    · simp [huid]
    · simp only [List.map_cons, henc]
      rw [← htm]
    · simp [hlen]

/-- **C8.** For a user id with an existing snapshot (as written by
backup: identity matching the key, template slot ids matching the
captured identity, at least one template, payloads produced by the hex
encoding), restore followed by backup succeeds and reproduces an
equivalent snapshot: same template count and identical persisted
payloads, under the same device identity. -/
theorem C8_restore_backup_roundtrip (d : Device) (db : TemplatesDB) (uid : String)
    (snap : Snapshot)
    (hfind : alookup db uid = some snap)
    (huid : snap.user.user_id = uid)
    (htuid : ∀ t ∈ snap.templates, t.uid = snap.user.uid)
    (hne : snap.templates ≠ [])
    (hhex : ∀ t ∈ snap.templates, ∃ bs, (∀ b ∈ bs, b < 256) ∧
      t.template = bytesToHex bs) :
    ∃ d', restore_user_templates d db uid = (true, d') ∧
      ∃ snap', backup_user_templates d' db uid = (true, ainsert db uid snap') ∧
        snap'.user = snap.user ∧
        snap'.templates.length = snap.templates.length ∧
        snap'.templates.map (fun t => t.template) =
          snap.templates.map (fun t => t.template) := by
  obtain ⟨ds, hds, hduid, hdenc, hdlen⟩ := decodeStored_spec snap.templates hhex
  have hstep : restore_user_templates d db uid =
      (match decodeStored snap.templates with
       | none => (false, d)
       | some fingers => (true, save_user_template d snap.user fingers)) := by
    unfold restore_user_templates
    rw [hfind]
  have hrestore : restore_user_templates d db uid =
      (true, save_user_template d snap.user ds) := by
    rw [hstep, hds]
  refine ⟨save_user_template d snap.user ds, hrestore, ?_⟩
  have hfindU : findUser (save_user_template d snap.user ds).users uid =
      some snap.user := by
    show findUser (snap.user :: _) uid = some snap.user
    unfold findUser
    rw [if_pos huid]
  have hfilter : (save_user_template d snap.user ds).templates.filter
      (fun t => decide (t.uid = snap.user.uid)) = ds := by
    show (ds ++ d.templates.filter fun t => decide (t.uid ≠ snap.user.uid)).filter
        (fun t => decide (t.uid = snap.user.uid)) = ds
    rw [List.filter_append]
    have h1 : ds.filter (fun t => decide (t.uid = snap.user.uid)) = ds := by
      apply List.filter_eq_self.mpr
      intro f hf
      rw [decide_eq_true_eq]
      have hfm : f.uid ∈ ds.map (fun f => f.uid) := List.mem_map_of_mem _ hf
      rw [hduid] at hfm
      rcases List.mem_map.mp hfm with ⟨t, ht, hEq⟩
      rw [← hEq]
      exact htuid t ht
    have h2 : (d.templates.filter fun t => decide (t.uid ≠ snap.user.uid)).filter
        (fun t => decide (t.uid = snap.user.uid)) = [] := by
      apply List.filter_eq_nil_iff.mpr
      intro a ha
      have hne' := (List.mem_filter.mp ha).2
      simp only [decide_eq_true_eq] at hne' ⊢
      exact hne'
    rw [h1, h2, List.append_nil]
  have hdsne : ds.isEmpty = false := by
    cases hd0 : ds with
    | nil =>
      rw [hd0] at hdlen
      exact absurd (List.length_eq_zero.mp hdlen.symm) hne
    | cons a l => rfl
  have hb0 : backup_user_templates (save_user_template d snap.user ds) db uid =
      (if ((save_user_template d snap.user ds).templates.filter
            (fun t => decide (t.uid = snap.user.uid))).isEmpty then
        (false, db)
       else
        (true, ainsert db uid ⟨snap.user,
          ((save_user_template d snap.user ds).templates.filter
            (fun t => decide (t.uid = snap.user.uid))).map storeTemplate⟩)) := by
    unfold backup_user_templates
    rw [hfindU]
  have hbackup : backup_user_templates (save_user_template d snap.user ds) db uid =
      (true, ainsert db uid ⟨snap.user, ds.map storeTemplate⟩) := by
    rw [hb0, hfilter, hdsne]
    simp
  refine ⟨⟨snap.user, ds.map storeTemplate⟩, hbackup, rfl, ?_, ?_⟩
  · simp only [List.length_map]
    exact hdlen
  · rw [List.map_map]
    exact hdenc

/-- Witness for C8: a one-template snapshot for `"1001"` with payload
bytes `[171, 205]` restores to an empty device and backs up again to
an equivalent snapshot. -/
theorem C8_witness :
    ∃ d', restore_user_templates ⟨[], []⟩
        [("1001", ⟨⟨7, "N", 0, "", "", "1001", 0⟩,
          [⟨7, 0, 1, bytesToHex [171, 205], "m"⟩]⟩)] "1001" = (true, d') ∧
      ∃ snap', backup_user_templates d'
          [("1001", ⟨⟨7, "N", 0, "", "", "1001", 0⟩,
            [⟨7, 0, 1, bytesToHex [171, 205], "m"⟩]⟩)] "1001" =
          (true, ainsert
            [("1001", ⟨⟨7, "N", 0, "", "", "1001", 0⟩,
              [⟨7, 0, 1, bytesToHex [171, 205], "m"⟩]⟩)] "1001" snap') ∧
        snap'.user = ⟨7, "N", 0, "", "", "1001", 0⟩ ∧
        snap'.templates.length = 1 ∧
        snap'.templates.map (fun t => t.template) = [bytesToHex [171, 205]] :=
  C8_restore_backup_roundtrip ⟨[], []⟩
    [("1001", ⟨⟨7, "N", 0, "", "", "1001", 0⟩,
      [⟨7, 0, 1, bytesToHex [171, 205], "m"⟩]⟩)]
    "1001" ⟨⟨7, "N", 0, "", "", "1001", 0⟩, [⟨7, 0, 1, bytesToHex [171, 205], "m"⟩]⟩
    (by decide) rfl (by decide) (by decide)
    (by
      intro t ht
      rcases List.mem_singleton.mp ht with rfl
      exact ⟨[171, 205], by decide, rfl⟩)

end KaizenGym
